import Mathlib

/-!
Shallow embedding of the Apollo Federation composition pipeline
(`src/apollo-federation/src/composition/mod.rs`).

The pipeline functions `compose`, `expand_subgraphs`, `validate_subgraphs`,
`pre_merge_validations`, `merge_subgraphs` and `post_merge_validations` are
embedded directly from the source.  External collaborators that live outside
the excerpt (link expansion, per-subgraph validation, the merge engine, the
schema well-formedness checker, the federation-schema converter, the
query-graph builder and the satisfiability solver) are passed in as function
parameters, mirroring the "opaque collaborator" boundary of the design.
-/

namespace Composition

/-- Error taxonomy of the composition pipeline: the four `CompositionError`
variants used by `composition/mod.rs`.  Collaborator errors are carried as
strings, matching the message-oriented use in the source. -/
inductive CompositionError where
  | TypeDefinitionInvalid (message : String)
  | SubgraphError (subgraph : String) (error : String)
  | SatisfiabilityError (message : String)
  | InternalError (message : String)
deriving DecidableEq

/-- Processing states of a subgraph artifact (the typestate markers
`Initial`, `Expanded`, `Upgraded`, `Validated`). -/
inductive SubgraphState where
  | Initial
  | Expanded
  | Upgraded
  | Validated
deriving DecidableEq

/-- Subgraph artifact: a named, URL-addressed schema document carrying a
phantom processing-state tag.  The schema document is represented by its
canonical serialized form (`schema_string` in the source); the per-subgraph
checks of the pipeline only consume this serialization. -/
structure Subgraph (s : SubgraphState) where
  name : String
  url : String
  schema_string : String
deriving DecidableEq

/-- Extended type in a merged schema: either an object type with its field
map (represented by the list of field names, the keys of `obj.fields`), or
any other kind of type definition. -/
inductive ExtendedType where
  | Object (fields : List String)
  | Other
deriving DecidableEq

/-- Merged schema document: the type map (`schema.types`) and the root query
operation of the schema definition (`schema.schema_definition.query`). -/
structure MergedSchema where
  types : List (String × ExtendedType)
  query : Option String
deriving DecidableEq

/-- Supergraph states: `Merged` (structurally combined but unchecked) versus
`Satisfiable` (proven operable). -/
inductive SupergraphState where
  | Merged
  | Satisfiable
deriving DecidableEq

/-- Supergraph: a merged schema carrying a phantom state tag. -/
structure Supergraph (s : SupergraphState) where
  schema : MergedSchema
deriving DecidableEq

/-- Entry of the map handed to the merge engine (`ValidFederationSubgraph`):
subgraph name, routing url, and its (federation-validated) schema. -/
structure ValidFederationSubgraph where
  name : String
  url : String
  schema : String
deriving DecidableEq

/-- Accumulating batch runner: apply the fallible transition `f` to every
artifact, collecting errors and successes in input order.  This is the
`map / filter_map(push error) / collect` idiom of `expand_subgraphs` and
`validate_subgraphs` in the source. -/
def runBatch {α β : Type} (f : α → Except CompositionError β) :
    List α → List CompositionError × List β
  | [] => ([], [])
  | s :: rest =>
    let acc := runBatch f rest
    match f s with
    | .ok b => (acc.1, b :: acc.2)
    | .error e => (e :: acc.1, acc.2)

/-- Stage `Initial → Expanded` (`expand_subgraphs`): run the link-expansion
collaborator over every subgraph; return the expanded list only when no
subgraph failed, otherwise all collected errors. -/
def expand_subgraphs
    (expand_links : Subgraph .Initial → Except CompositionError (Subgraph .Expanded))
    (subgraphs : List (Subgraph .Initial)) :
    Except (List CompositionError) (List (Subgraph .Expanded)) :=
  let acc := runBatch expand_links subgraphs
  if acc.1.isEmpty then .ok acc.2 else .error acc.1

/-- Stage `Upgraded → Validated` (`validate_subgraphs`): run the per-subgraph
validation collaborator over every subgraph, with the same accumulation
policy as `expand_subgraphs`. -/
def validate_subgraphs
    (validate : Subgraph .Upgraded → Except CompositionError (Subgraph .Validated))
    (subgraphs : List (Subgraph .Upgraded)) :
    Except (List CompositionError) (List (Subgraph .Validated)) :=
  let acc := runBatch validate subgraphs
  if acc.1.isEmpty then .ok acc.2 else .error acc.1

/-- Duplicate-schema detection loop of `pre_merge_validations`: walk the
subgraphs keeping the set of schema serializations already seen; every
subgraph whose serialization was seen before contributes one
`TypeDefinitionInvalid` error. -/
def duplicateSchemaErrors : List (Subgraph .Validated) → List String → List CompositionError
  | [], _ => []
  | s :: rest, seen =>
    if s.schema_string ∈ seen then
      CompositionError.TypeDefinitionInvalid "Duplicate subgraph schema detected" ::
        duplicateSchemaErrors rest seen
    else
      duplicateSchemaErrors rest (s.schema_string :: seen)

/-- Re-validation loop of `pre_merge_validations`: each subgraph whose schema
the federation-schema converter (`ValidFederationSchema::new`) rejects
contributes a `SubgraphError` whose `subgraph` field is the literal string
"Subgraph", exactly as hardcoded in the source. -/
def revalidationErrors (fedCheck : String → Except String Unit) :
    List (Subgraph .Validated) → List CompositionError
  | [] => []
  | s :: rest =>
    match fedCheck s.schema_string with
    | .ok _ => revalidationErrors fedCheck rest
    | .error e => CompositionError.SubgraphError "Subgraph" e :: revalidationErrors fedCheck rest

/-- Cross-subgraph checks before merge (`pre_merge_validations`): duplicate
detection followed by per-subgraph federation re-validation, errors
accumulated, `Ok` only when none occurred. -/
def pre_merge_validations (fedCheck : String → Except String Unit)
    (subgraphs : List (Subgraph .Validated)) : Except (List CompositionError) Unit :=
  let errors := duplicateSchemaErrors subgraphs [] ++ revalidationErrors fedCheck subgraphs
  if errors.isEmpty then .ok () else .error errors

/-- Insertion into the `BTreeMap` handed to the merge engine: replace the
value when the key is already present, otherwise append the binding. -/
def btreeInsert (m : List (String × ValidFederationSubgraph)) (k : String)
    (v : ValidFederationSubgraph) : List (String × ValidFederationSubgraph) :=
  if m.any (fun p => p.1 = k) then
    m.map (fun p => if p.1 = k then (k, v) else p)
  else
    m ++ [(k, v)]

/-- Map-building loop of `merge_subgraphs`: for each subgraph, run the
federation-schema converter; on success insert under the literal key
"Subgraph" an entry with name "Subgraph" and empty url (as hardcoded in the
source), on failure return immediately with a single `SubgraphError`. -/
def buildMergeMap (fedCheck : String → Except String Unit) :
    List (Subgraph .Validated) → List (String × ValidFederationSubgraph) →
    Except (List CompositionError) (List (String × ValidFederationSubgraph))
  | [], m => .ok m
  | s :: rest, m =>
    match fedCheck s.schema_string with
    | .ok _ =>
      buildMergeMap fedCheck rest
        (btreeInsert m "Subgraph" ⟨"Subgraph", "", s.schema_string⟩)
    | .error e => .error [CompositionError.SubgraphError "Subgraph" e]

/-- Merge engine adapter (`merge_subgraphs`): build the subgraph map, hand it
once to the merge engine; wrap its schema as a `Merged` supergraph on
success, convert its textual conflict list one-to-one into `InternalError`
entries on failure. -/
def merge_subgraphs (fedCheck : String → Except String Unit)
    (mergeEngine : List (String × ValidFederationSubgraph) →
      Except (List String) MergedSchema)
    (subgraphs : List (Subgraph .Validated)) :
    Except (List CompositionError) (Supergraph .Merged) :=
  match buildMergeMap fedCheck subgraphs [] with
  | .error errs => .error errs
  | .ok m =>
    match mergeEngine m with
    | .ok schema => .ok ⟨schema⟩
    | .error errs => .error (errs.map (fun e => CompositionError.InternalError e))

/-- ASCII single-quote character, used in the satisfiability message. -/
def squote : String := String.mk [Char.ofNat 39]

/-- Inner loop of the field-resolvability check: for each field name of an
object type, test membership in that same type's field map (`allFields` is
`obj.fields`, the list being iterated), and emit a `SatisfiabilityError`
naming the type and field when the test fails. -/
def fieldErrors (type_name : String) (allFields : List String) :
    List String → List CompositionError
  | [] => []
  | field_name :: rest =>
    if field_name ∈ allFields then
      fieldErrors type_name allFields rest
    else
      CompositionError.SatisfiabilityError
          ("Field " ++ squote ++ type_name ++ "." ++ field_name ++ squote ++
            " cannot be resolved across subgraphs") ::
        fieldErrors type_name allFields rest

/-- Field-resolvability loop of `post_merge_validations`: over every object
type of the merged schema, run `fieldErrors` on its own field list. -/
def fieldResolvabilityErrors : List (String × ExtendedType) → List CompositionError
  | [] => []
  | (type_name, ExtendedType.Object fields) :: rest =>
    fieldErrors type_name fields fields ++ fieldResolvabilityErrors rest
  | (_, ExtendedType.Other) :: rest => fieldResolvabilityErrors rest

/-- Errors collected by the first three checks of `post_merge_validations`:
non-emptiness of the type set, root query presence, and structural
re-validation of the merged document (whose error messages come from the
schema well-formedness collaborator). -/
def earlyPostMergeErrors (schema : MergedSchema) (validationErrors : List String) :
    List CompositionError :=
  (if schema.types.isEmpty then
    [CompositionError.TypeDefinitionInvalid "Empty supergraph schema"] else []) ++
  (if schema.query.isNone then
    [CompositionError.TypeDefinitionInvalid "Missing root Query type"] else []) ++
  validationErrors.map (fun e => CompositionError.TypeDefinitionInvalid e)

/-- Post-merge validation (`post_merge_validations`): non-emptiness, root
query, structural re-validation, then federation-schema conversion (early
return with an `InternalError` on failure), query-graph construction (same
policy), and finally the field-resolvability loop; `Ok` only when no check
emitted an error.  `validateDoc` yields the structural validation error
messages of a schema (empty list meaning the document validated), `convert`
is the federation-schema converter, `buildGraph` the query-graph builder. -/
def post_merge_validations (validateDoc : MergedSchema → List String)
    (convert : MergedSchema → Except String Unit)
    (buildGraph : MergedSchema → Except String Unit)
    (supergraph : Supergraph .Merged) : Except (List CompositionError) Unit :=
  let schema := supergraph.schema
  let errors := earlyPostMergeErrors schema (validateDoc schema)
  match convert schema with
  | .error e =>
    let errors2 := errors ++
      [CompositionError.InternalError ("Failed to convert schema: " ++ e)]
    if errors2.isEmpty then .ok () else .error errors2
  | .ok _ =>
    match buildGraph schema with
    | .error e =>
      let errors2 := errors ++
        [CompositionError.InternalError ("Failed to build federated query graph: " ++ e)]
      if errors2.isEmpty then .ok () else .error errors2
    | .ok _ =>
      let errors2 := errors ++ fieldResolvabilityErrors schema.types
      if errors2.isEmpty then .ok () else .error errors2

/-- Pipeline orchestrator (`compose`): expand, upgrade, validate, pre-merge
validate, merge, post-merge validate, then the satisfiability solver, each
stage short-circuiting the rest on failure.  `upgrade` is the whole-list
version-upgrade collaborator and `vsat` the satisfiability solver. -/
def compose
    (expand_links : Subgraph .Initial → Except CompositionError (Subgraph .Expanded))
    (upgrade : List (Subgraph .Expanded) →
      Except (List CompositionError) (List (Subgraph .Upgraded)))
    (validate : Subgraph .Upgraded → Except CompositionError (Subgraph .Validated))
    (fedCheck : String → Except String Unit)
    (mergeEngine : List (String × ValidFederationSubgraph) →
      Except (List String) MergedSchema)
    (validateDoc : MergedSchema → List String)
    (convert : MergedSchema → Except String Unit)
    (buildGraph : MergedSchema → Except String Unit)
    (vsat : Supergraph .Merged → Except (List CompositionError) (Supergraph .Satisfiable))
    (subgraphs : List (Subgraph .Initial)) :
    Except (List CompositionError) (Supergraph .Satisfiable) := do
  let expanded ← expand_subgraphs expand_links subgraphs
  let upgraded ← upgrade expanded
  let validated ← validate_subgraphs validate upgraded
  let _ ← pre_merge_validations fedCheck validated
  let supergraph ← merge_subgraphs fedCheck mergeEngine validated
  let _ ← post_merge_validations validateDoc convert buildGraph supergraph
  vsat supergraph

/-! Concrete collaborator instances and inputs, used to run the pipeline on
closed inputs. -/

/-- Link-expansion collaborator that fails exactly on the subgraph named
"bad". -/
def expandLinksTest : Subgraph .Initial → Except CompositionError (Subgraph .Expanded) :=
  fun s =>
    if s.name = "bad" then .error (CompositionError.TypeDefinitionInvalid "expansion failed")
    else .ok ⟨s.name, s.url, s.schema_string⟩

/-- Per-subgraph validation collaborator that fails exactly on the subgraph
named "bad". -/
def validateTest : Subgraph .Upgraded → Except CompositionError (Subgraph .Validated) :=
  fun s =>
    if s.name = "bad" then .error (CompositionError.TypeDefinitionInvalid "validation failed")
    else .ok ⟨s.name, s.url, s.schema_string⟩

/-- Two initial subgraphs, the second of which the test collaborators reject. -/
def initialTestList : List (Subgraph .Initial) :=
  [⟨"good", "urlA", "schemaA"⟩, ⟨"bad", "urlB", "schemaB"⟩]

/-- Two upgraded subgraphs, the second of which the test collaborators reject. -/
def upgradedTestList : List (Subgraph .Upgraded) :=
  [⟨"good", "urlA", "schemaA"⟩, ⟨"bad", "urlB", "schemaB"⟩]

/-- Link-expansion collaborator that always succeeds, retagging the artifact. -/
def expandLinksOk : Subgraph .Initial → Except CompositionError (Subgraph .Expanded) :=
  fun s => .ok ⟨s.name, s.url, s.schema_string⟩

/-- Success function matching `expandLinksOk`. -/
def expandedOf : Subgraph .Initial → Subgraph .Expanded :=
  fun s => ⟨s.name, s.url, s.schema_string⟩

/-- Per-subgraph validation collaborator that always succeeds. -/
def validateOk : Subgraph .Upgraded → Except CompositionError (Subgraph .Validated) :=
  fun s => .ok ⟨s.name, s.url, s.schema_string⟩

/-- Success function matching `validateOk`. -/
def validatedOf : Subgraph .Upgraded → Subgraph .Validated :=
  fun s => ⟨s.name, s.url, s.schema_string⟩

/-! Helper lemmas about the batch runner. -/

/-- Number of errors collected by the batch runner: one per failing artifact. -/
lemma runBatch_errors_length {α β : Type} (f : α → Except CompositionError β)
    (l : List α) : (runBatch f l).1.length = l.countP (fun s => !(f s).isOk) := by
  induction l with
  | nil => simp [runBatch]
  | cons s rest ih =>
    rw [List.countP_cons]
    cases h : f s with
    | ok b => simp [runBatch, h, Except.isOk, Except.toBool, ih]
    | error e => simp [runBatch, h, Except.isOk, Except.toBool, ih]

/-- When every artifact succeeds via `g`, the batch runner collects no error
and outputs the successes in input order. -/
lemma runBatch_all_ok {α β : Type} (f : α → Except CompositionError β)
    (g : α → β) (l : List α) (h : ∀ s ∈ l, f s = .ok (g s)) :
    runBatch f l = ([], l.map g) := by
  induction l with
  | nil => simp [runBatch]
  | cons s rest ih =>
    have hs : f s = .ok (g s) := h s (List.mem_cons_self s rest)
    have hrest : ∀ x ∈ rest, f x = .ok (g x) := fun x hx => h x (List.mem_cons_of_mem s hx)
    simp [runBatch, hs, ih hrest]

/-- Outcome of a batch stage is determined by emptiness of the collected
error list: the successful output collection is returned exactly when no
error was collected. -/
lemma batch_ok_iff_no_errors {α β : Type} (f : α → Except CompositionError β)
    (l : List α) :
    (∃ out, (if (runBatch f l).1.isEmpty then Except.ok (runBatch f l).2
      else Except.error (runBatch f l).1) = .ok out) ↔ (runBatch f l).1 = [] := by
  cases h : (runBatch f l).1 with
  | nil => simp [h]
  | cons e rest => simp [h]

/-- C3: in a batch stage (`expand_subgraphs`, `validate_subgraphs`) where
exactly K of the N artifacts fail the per-artifact transition (1 ≤ K < N),
the stage returns an error result of exactly K errors (hence zero successful
outputs), and in general a stage returns a successful output collection
exactly when its collected error list is empty. -/
theorem batch_stage_partial_failure
    (el : Subgraph .Initial → Except CompositionError (Subgraph .Expanded))
    (va : Subgraph .Upgraded → Except CompositionError (Subgraph .Validated))
    (li : List (Subgraph .Initial)) (lu : List (Subgraph .Upgraded))
    (Ki Ku : Nat)
    (hKi : Ki = li.countP (fun s => !(el s).isOk)) (h1i : 1 ≤ Ki) (h2i : Ki < li.length)
    (hKu : Ku = lu.countP (fun s => !(va s).isOk)) (h1u : 1 ≤ Ku) (h2u : Ku < lu.length) :
    (∃ errs, expand_subgraphs el li = .error errs ∧ errs.length = Ki) ∧
    (∃ errs, validate_subgraphs va lu = .error errs ∧ errs.length = Ku) ∧
    (∀ l, (∃ out, expand_subgraphs el l = .ok out) ↔ (runBatch el l).1 = []) ∧
    (∀ l, (∃ out, validate_subgraphs va l = .ok out) ↔ (runBatch va l).1 = []) := by
  have hleni : (runBatch el li).1.length = Ki :=
    (runBatch_errors_length el li).trans hKi.symm
  have hlenu : (runBatch va lu).1.length = Ku :=
    (runBatch_errors_length va lu).trans hKu.symm
  have hnei : (runBatch el li).1 ≠ [] := by
    intro h0
    rw [h0] at hleni
    simp at hleni
    omega
  have hneu : (runBatch va lu).1 ≠ [] := by
    intro h0
    rw [h0] at hlenu
    simp at hlenu
    omega
  refine ⟨⟨(runBatch el li).1, ?_, hleni⟩, ⟨(runBatch va lu).1, ?_, hlenu⟩, ?_, ?_⟩
  · simp only [expand_subgraphs]
    rw [if_neg (by simpa using hnei)]
  · simp only [validate_subgraphs]
    rw [if_neg (by simpa using hneu)]
  · intro l
    simpa only [expand_subgraphs] using batch_ok_iff_no_errors el l
  · intro l
    simpa only [validate_subgraphs] using batch_ok_iff_no_errors va l

/-- Witness for C3: on the concrete two-element input with one failing
artifact, `expand_subgraphs` returns exactly one error. -/
theorem batch_stage_partial_failure_witness :
    (1 : Nat) = initialTestList.countP (fun s => !(expandLinksTest s).isOk) ∧
    (∃ errs, expand_subgraphs expandLinksTest initialTestList = .error errs ∧
      errs.length = 1) :=
  ⟨by decide,
    (batch_stage_partial_failure expandLinksTest validateTest initialTestList
      upgradedTestList 1 1 (by decide) (by decide) (by decide)
      (by decide) (by decide) (by decide)).1⟩

/-- C9: when every artifact of a batch stage succeeds (via the success
function `g`), the stage returns the transitioned artifacts as the map of
`g` over the input list, hence in the same relative order as the inputs. -/
theorem batch_stage_preserves_order
    (el : Subgraph .Initial → Except CompositionError (Subgraph .Expanded))
    (va : Subgraph .Upgraded → Except CompositionError (Subgraph .Validated))
    (gi : Subgraph .Initial → Subgraph .Expanded)
    (gu : Subgraph .Upgraded → Subgraph .Validated)
    (li : List (Subgraph .Initial)) (lu : List (Subgraph .Upgraded))
    (hi : ∀ s ∈ li, el s = .ok (gi s)) (hu : ∀ s ∈ lu, va s = .ok (gu s)) :
    expand_subgraphs el li = .ok (li.map gi) ∧
    validate_subgraphs va lu = .ok (lu.map gu) := by
  constructor
  · simp only [expand_subgraphs, runBatch_all_ok el gi li hi]
    rfl
  · simp only [validate_subgraphs, runBatch_all_ok va gu lu hu]
    rfl

/-- Witness for C9: on a concrete all-success run, both stages return the
mapped lists. -/
theorem batch_stage_preserves_order_witness :
    expand_subgraphs expandLinksOk initialTestList = .ok (initialTestList.map expandedOf) ∧
    validate_subgraphs validateOk upgradedTestList = .ok (upgradedTestList.map validatedOf) :=
  batch_stage_preserves_order expandLinksOk validateOk expandedOf validatedOf
    initialTestList upgradedTestList (fun _ _ => rfl) (fun _ _ => rfl)

/-! Lemmas about the pre-merge duplicate-detection and re-validation loops. -/

/-- The duplicate-detection loop emits no error when the schema
serializations are pairwise distinct and disjoint from the seen set. -/
lemma duplicateSchemaErrors_eq_nil (l : List (Subgraph .Validated)) (seen : List String)
    (hnd : (l.map Subgraph.schema_string).Nodup)
    (hdisj : ∀ s ∈ l, s.schema_string ∉ seen) :
    duplicateSchemaErrors l seen = [] := by
  induction l generalizing seen with
  | nil => rfl
  | cons s rest ih =>
    have hs : s.schema_string ∉ seen := hdisj s (List.mem_cons_self s rest)
    rw [List.map_cons, List.nodup_cons] at hnd
    simp only [duplicateSchemaErrors, if_neg hs]
    refine ih _ hnd.2 ?_
    intro x hx
    simp only [List.mem_cons]
    rintro (hx1 | hx2)
    · exact hnd.1 (hx1 ▸ List.mem_map_of_mem Subgraph.schema_string hx)
    · exact hdisj x (List.mem_cons_of_mem s hx) hx2

/-- The duplicate-detection loop emits the duplicate error whenever the
serializations are not pairwise distinct, or some serialization was already
seen. -/
lemma dup_mem_duplicateSchemaErrors (l : List (Subgraph .Validated)) (seen : List String)
    (h : ¬(l.map Subgraph.schema_string).Nodup ∨ ∃ s ∈ l, s.schema_string ∈ seen) :
    CompositionError.TypeDefinitionInvalid "Duplicate subgraph schema detected" ∈
      duplicateSchemaErrors l seen := by
  induction l generalizing seen with
  | nil =>
    rcases h with h | ⟨s, hs, _⟩
    · simp at h
    · simp at hs
  | cons s rest ih =>
    by_cases hs : s.schema_string ∈ seen
    · simp [duplicateSchemaErrors, if_pos hs]
    · simp only [duplicateSchemaErrors, if_neg hs]
      apply ih
      rcases h with h | ⟨x, hx, hxseen⟩
      · rw [List.map_cons, List.nodup_cons, not_and_or] at h
        rcases h with h | h
        · push_neg at h
          rcases List.mem_map.mp h with ⟨x, hx, hxs⟩
          exact Or.inr ⟨x, hx, by rw [hxs]; exact List.mem_cons_self _ _⟩
        · exact Or.inl h
      · rcases List.mem_cons.mp hx with rfl | hx'
        · exact absurd hxseen hs
        · exact Or.inr ⟨x, hx', List.mem_cons_of_mem _ hxseen⟩

/-- Every error of the re-validation loop is a `SubgraphError`; in
particular no `TypeDefinitionInvalid` occurs there. -/
lemma typeDefinitionInvalid_not_mem_revalidationErrors
    (fedCheck : String → Except String Unit) (l : List (Subgraph .Validated))
    (m : String) :
    CompositionError.TypeDefinitionInvalid m ∉ revalidationErrors fedCheck l := by
  induction l with
  | nil => simp [revalidationErrors]
  | cons s rest ih =>
    simp only [revalidationErrors]
    cases fedCheck s.schema_string with
    | ok _ => exact ih
    | error e => simpa using ih

/-- C5: `pre_merge_validations` reports at least one `TypeDefinitionInvalid`
error whenever two distinct subgraphs have identical serialized schema
content, and never reports the duplicate-detection error when the
serialized schemas are pairwise distinct. -/
theorem pre_merge_duplicate_detection (fedCheck : String → Except String Unit)
    (subgraphs : List (Subgraph .Validated)) :
    (∀ i j : Fin subgraphs.length, i ≠ j →
      (subgraphs.get i).schema_string = (subgraphs.get j).schema_string →
      ∃ l, pre_merge_validations fedCheck subgraphs = .error l ∧
        CompositionError.TypeDefinitionInvalid "Duplicate subgraph schema detected" ∈ l) ∧
    ((subgraphs.map Subgraph.schema_string).Nodup →
      ∀ l, pre_merge_validations fedCheck subgraphs = .error l →
        CompositionError.TypeDefinitionInvalid "Duplicate subgraph schema detected" ∉ l) := by
  constructor
  · intro i j hij heq
    have hnd : ¬(subgraphs.map Subgraph.schema_string).Nodup := by
      intro hnd
      have hpw := List.pairwise_iff_get.mp hnd
      have heq' : (subgraphs.map Subgraph.schema_string).get ⟨i.val, by simpa using i.isLt⟩ =
          (subgraphs.map Subgraph.schema_string).get ⟨j.val, by simpa using j.isLt⟩ := by
        simp only [List.get_eq_getElem, List.getElem_map]
        simpa only [List.get_eq_getElem] using heq
      rcases lt_or_gt_of_ne (Fin.val_ne_of_ne hij) with hlt | hgt
      · exact hpw ⟨i.val, by simpa using i.isLt⟩ ⟨j.val, by simpa using j.isLt⟩
          (Fin.mk_lt_mk.mpr hlt) heq'
      · exact hpw ⟨j.val, by simpa using j.isLt⟩ ⟨i.val, by simpa using i.isLt⟩
          (Fin.mk_lt_mk.mpr hgt) heq'.symm
    have hmem := dup_mem_duplicateSchemaErrors subgraphs [] (Or.inl hnd)
    have hmem' : CompositionError.TypeDefinitionInvalid "Duplicate subgraph schema detected" ∈
        duplicateSchemaErrors subgraphs [] ++ revalidationErrors fedCheck subgraphs :=
      List.mem_append_left _ hmem
    refine ⟨duplicateSchemaErrors subgraphs [] ++ revalidationErrors fedCheck subgraphs, ?_, hmem'⟩
    simp only [pre_merge_validations]
    rw [if_neg]
    simp only [List.isEmpty_iff]
    exact fun h0 => by simp [h0] at hmem'
  · intro hnd l hl hmem
    have hdup : duplicateSchemaErrors subgraphs [] = [] :=
      duplicateSchemaErrors_eq_nil subgraphs [] hnd (by simp)
    simp only [pre_merge_validations, hdup, List.nil_append] at hl
    split at hl
    · exact Except.noConfusion hl
    · cases hl
      exact typeDefinitionInvalid_not_mem_revalidationErrors fedCheck subgraphs _ hmem

/-- Federation-schema converter that accepts every schema. -/
def fedCheckOk : String → Except String Unit := fun _ => .ok ()

/-- Two validated subgraphs with distinct names but byte-identical schema
serializations. -/
def duplicateSchemaList : List (Subgraph .Validated) :=
  [⟨"alpha", "urlA", "sharedSchema"⟩, ⟨"beta", "urlB", "sharedSchema"⟩]

/-- Witness for C5: on two subgraphs with identical serialized schemas,
`pre_merge_validations` errors with the duplicate-detection error. -/
theorem pre_merge_duplicate_detection_witness :
    ∃ l, pre_merge_validations fedCheckOk duplicateSchemaList = .error l ∧
      CompositionError.TypeDefinitionInvalid "Duplicate subgraph schema detected" ∈ l :=
  (pre_merge_duplicate_detection fedCheckOk duplicateSchemaList).1
    ⟨0, by decide⟩ ⟨1, by decide⟩ (by decide) rfl

/-- C8 (evidence of the defect): a subgraph named "Accounts" whose schema the
federation re-validation rejects produces a `SubgraphError` whose `subgraph`
field is the hardcoded literal "Subgraph", not the actual subgraph name. -/
theorem pre_merge_subgraph_error_hardcoded_name :
    pre_merge_validations (fun _ => .error "invalid federation schema")
      [⟨"Accounts", "urlAccounts", "schemaAccounts"⟩] =
      .error [CompositionError.SubgraphError "Subgraph" "invalid federation schema"] := rfl

/-! Lemmas about the post-merge checks. -/

/-- The inner field loop emits no error when every iterated field is a
member of the consulted field map. -/
lemma fieldErrors_eq_nil (type_name : String) (allFields : List String)
    (l : List String) (h : ∀ x ∈ l, x ∈ allFields) :
    fieldErrors type_name allFields l = [] := by
  induction l with
  | nil => rfl
  | cons x rest ih =>
    have hx : x ∈ allFields := h x (List.mem_cons_self x rest)
    simp only [fieldErrors, if_pos hx]
    exact ih fun y hy => h y (List.mem_cons_of_mem x hy)

/-- The field-resolvability loop of `post_merge_validations` never emits an
error: each field is tested for membership in its own type's field map,
which always holds. -/
lemma fieldResolvabilityErrors_eq_nil (types : List (String × ExtendedType)) :
    fieldResolvabilityErrors types = [] := by
  induction types with
  | nil => rfl
  | cons t rest ih =>
    rcases t with ⟨type_name, td⟩
    cases td with
    | Object fields =>
      simp only [fieldResolvabilityErrors, ih, List.append_nil]
      exact fieldErrors_eq_nil type_name fields fields fun x hx => hx
    | Other => simpa [fieldResolvabilityErrors] using ih

/-- The first three post-merge checks only produce `TypeDefinitionInvalid`
errors; no `SatisfiabilityError` is among them. -/
lemma satisfiability_not_mem_early (schema : MergedSchema) (v : List String)
    (m : String) :
    CompositionError.SatisfiabilityError m ∉ earlyPostMergeErrors schema v := by
  simp only [earlyPostMergeErrors, List.mem_append, List.mem_map]
  rintro ((h | h) | ⟨x, _, hx⟩)
  · split at h <;> simp_all
  · split at h <;> simp_all
  · exact CompositionError.noConfusion hx

/-- When the root query operation is absent, the missing-root error is among
the early post-merge errors. -/
lemma missing_root_mem_early (schema : MergedSchema) (v : List String)
    (h : schema.query = none) :
    CompositionError.TypeDefinitionInvalid "Missing root Query type" ∈
      earlyPostMergeErrors schema v := by
  simp only [earlyPostMergeErrors, h, Option.isNone_none, if_pos]
  simp

/-- When the root query operation is present and the type set and structural
validation give no occasion, the missing-root error is not among the early
post-merge errors. -/
lemma missing_root_not_mem_early (schema : MergedSchema) (v : List String)
    (q : String) (hq : schema.query = some q) (ht : schema.types ≠ [])
    (hv : ∀ x ∈ v, x ≠ "Missing root Query type") :
    CompositionError.TypeDefinitionInvalid "Missing root Query type" ∉
      earlyPostMergeErrors schema v := by
  simp only [earlyPostMergeErrors, hq, Option.isNone_some, if_neg, List.mem_append,
    List.mem_map, List.isEmpty_iff, if_neg ht]
  rintro ((h | h) | ⟨x, hx, hx2⟩)
  · simp at h
  · simp at h
  · exact hv x hx (by injection hx2)

/-- Whatever branch `post_merge_validations` exits through, its error list
is the early errors followed by a branch-specific suffix: the conversion
internal error, the graph-build internal error, or the (always empty)
field-resolvability errors. -/
lemma post_merge_error_shape (validateDoc : MergedSchema → List String)
    (convert : MergedSchema → Except String Unit)
    (buildGraph : MergedSchema → Except String Unit)
    (sg : Supergraph .Merged) (l : List CompositionError)
    (h : post_merge_validations validateDoc convert buildGraph sg = .error l) :
    (∃ e, convert sg.schema = .error e ∧
      l = earlyPostMergeErrors sg.schema (validateDoc sg.schema) ++
        [CompositionError.InternalError ("Failed to convert schema: " ++ e)]) ∨
    (∃ e, buildGraph sg.schema = .error e ∧
      l = earlyPostMergeErrors sg.schema (validateDoc sg.schema) ++
        [CompositionError.InternalError ("Failed to build federated query graph: " ++ e)]) ∨
    l = earlyPostMergeErrors sg.schema (validateDoc sg.schema) := by
  cases hc : convert sg.schema with
  | error e =>
    have hval : post_merge_validations validateDoc convert buildGraph sg =
        .error (earlyPostMergeErrors sg.schema (validateDoc sg.schema) ++
          [CompositionError.InternalError ("Failed to convert schema: " ++ e)]) := by
      simp only [post_merge_validations, hc]
      rw [if_neg]
      simp [List.isEmpty_iff]
    rw [hval] at h
    injection h with h'
    exact Or.inl ⟨e, rfl, h'.symm⟩
  | ok u =>
    cases hb : buildGraph sg.schema with
    | error e =>
      have hval : post_merge_validations validateDoc convert buildGraph sg =
          .error (earlyPostMergeErrors sg.schema (validateDoc sg.schema) ++
            [CompositionError.InternalError
              ("Failed to build federated query graph: " ++ e)]) := by
        simp only [post_merge_validations, hc, hb]
        rw [if_neg]
        simp [List.isEmpty_iff]
      rw [hval] at h
      injection h with h'
      exact Or.inr (Or.inl ⟨e, rfl, h'.symm⟩)
    | ok v =>
      have hval : post_merge_validations validateDoc convert buildGraph sg =
          (if (earlyPostMergeErrors sg.schema (validateDoc sg.schema)).isEmpty then
            Except.ok () else
            .error (earlyPostMergeErrors sg.schema (validateDoc sg.schema))) := by
        simp only [post_merge_validations, hc, hb, fieldResolvabilityErrors_eq_nil,
          List.append_nil]
      rw [hval] at h
      split at h
      · exact Except.noConfusion h
      · injection h with h'
        exact Or.inr (Or.inr h'.symm)

/-- C10: the error list returned by `post_merge_validations` never contains
a `SatisfiabilityError`: the field-resolvability loop checks each field for
membership in its own type's field map, which always holds, so its error
branch is unreachable. -/
theorem post_merge_no_satisfiability_error (validateDoc : MergedSchema → List String)
    (convert : MergedSchema → Except String Unit)
    (buildGraph : MergedSchema → Except String Unit)
    (sg : Supergraph .Merged) (l : List CompositionError) (m : String)
    (h : post_merge_validations validateDoc convert buildGraph sg = .error l) :
    CompositionError.SatisfiabilityError m ∉ l := by
  rcases post_merge_error_shape validateDoc convert buildGraph sg l h with
    ⟨e, _, rfl⟩ | ⟨e, _, rfl⟩ | rfl
  · rw [List.mem_append]
    rintro (hm | hm)
    · exact satisfiability_not_mem_early _ _ _ hm
    · simp at hm
  · rw [List.mem_append]
    rintro (hm | hm)
    · exact satisfiability_not_mem_early _ _ _ hm
    · simp at hm
  · exact satisfiability_not_mem_early _ _ _

/-- Structural-validation collaborator reporting no error. -/
def validateDocOk : MergedSchema → List String := fun _ => []

/-- Federation-schema conversion collaborator that always succeeds. -/
def convertOk : MergedSchema → Except String Unit := fun _ => .ok ()

/-- Query-graph building collaborator that always succeeds. -/
def buildGraphOk : MergedSchema → Except String Unit := fun _ => .ok ()

/-- Merged supergraph with an empty type set and no root query. -/
def emptySupergraph : Supergraph .Merged := ⟨⟨[], none⟩⟩

/-- Witness for C10: a concrete failing post-merge run whose error list
contains no `SatisfiabilityError`. -/
theorem post_merge_no_satisfiability_error_witness :
    CompositionError.SatisfiabilityError "any" ∉
      [CompositionError.TypeDefinitionInvalid "Empty supergraph schema",
       CompositionError.TypeDefinitionInvalid "Missing root Query type"] :=
  post_merge_no_satisfiability_error validateDocOk convertOk buildGraphOk
    emptySupergraph _ "any" rfl

/-- C6: a merged supergraph whose schema declares no root query operation
always makes `post_merge_validations` return an error list containing the
`TypeDefinitionInvalid` error "Missing root Query type"; with a root query
present, a non-empty type set, and no structural-validation message of that
text, this specific error never occurs. -/
theorem post_merge_root_query_check (validateDoc : MergedSchema → List String)
    (convert : MergedSchema → Except String Unit)
    (buildGraph : MergedSchema → Except String Unit)
    (sg : Supergraph .Merged) :
    (sg.schema.query = none →
      ∃ l, post_merge_validations validateDoc convert buildGraph sg = .error l ∧
        CompositionError.TypeDefinitionInvalid "Missing root Query type" ∈ l) ∧
    (∀ q, sg.schema.query = some q → sg.schema.types ≠ [] →
      (∀ m ∈ validateDoc sg.schema, m ≠ "Missing root Query type") →
      ∀ l, post_merge_validations validateDoc convert buildGraph sg = .error l →
        CompositionError.TypeDefinitionInvalid "Missing root Query type" ∉ l) := by
  constructor
  · intro hq
    have hmem := missing_root_mem_early sg.schema (validateDoc sg.schema) hq
    have hne : earlyPostMergeErrors sg.schema (validateDoc sg.schema) ≠ [] := by
      intro h0
      rw [h0] at hmem
      simp at hmem
    cases hl : post_merge_validations validateDoc convert buildGraph sg with
    | ok u =>
      exfalso
      cases hc : convert sg.schema with
      | error e =>
        have hval : post_merge_validations validateDoc convert buildGraph sg =
            .error (earlyPostMergeErrors sg.schema (validateDoc sg.schema) ++
              [CompositionError.InternalError ("Failed to convert schema: " ++ e)]) := by
          simp only [post_merge_validations, hc]
          rw [if_neg]
          simp [List.isEmpty_iff]
        rw [hval] at hl
        exact Except.noConfusion hl
      | ok u' =>
        cases hb : buildGraph sg.schema with
        | error e =>
          have hval : post_merge_validations validateDoc convert buildGraph sg =
              .error (earlyPostMergeErrors sg.schema (validateDoc sg.schema) ++
                [CompositionError.InternalError
                  ("Failed to build federated query graph: " ++ e)]) := by
            simp only [post_merge_validations, hc, hb]
            rw [if_neg]
            simp [List.isEmpty_iff]
          rw [hval] at hl
          exact Except.noConfusion hl
        | ok v =>
          have hval : post_merge_validations validateDoc convert buildGraph sg =
              .error (earlyPostMergeErrors sg.schema (validateDoc sg.schema)) := by
            simp only [post_merge_validations, hc, hb, fieldResolvabilityErrors_eq_nil,
              List.append_nil]
            rw [if_neg]
            simpa [List.isEmpty_iff] using hne
          rw [hval] at hl
          exact Except.noConfusion hl
    | error l =>
      refine ⟨l, rfl, ?_⟩
      rcases post_merge_error_shape validateDoc convert buildGraph sg l hl with
        ⟨e, _, rfl⟩ | ⟨e, _, rfl⟩ | rfl
      · exact List.mem_append_left _ hmem
      · exact List.mem_append_left _ hmem
      · exact hmem
  · intro q hq ht hv l hl hmem
    have hnot := missing_root_not_mem_early sg.schema (validateDoc sg.schema) q hq ht hv
    rcases post_merge_error_shape validateDoc convert buildGraph sg l hl with
      ⟨e, _, rfl⟩ | ⟨e, _, rfl⟩ | rfl
    · rcases List.mem_append.mp hmem with hm | hm
      · exact hnot hm
      · simp at hm
    · rcases List.mem_append.mp hmem with hm | hm
      · exact hnot hm
      · simp at hm
    · exact hnot hmem

/-- Witness for C6: the concrete query-less merged supergraph makes
`post_merge_validations` report the missing-root error. -/
theorem post_merge_root_query_check_witness :
    emptySupergraph.schema.query = none ∧
    ∃ l, post_merge_validations validateDocOk convertOk buildGraphOk
        emptySupergraph = .error l ∧
      CompositionError.TypeDefinitionInvalid "Missing root Query type" ∈ l :=
  ⟨rfl, (post_merge_root_query_check validateDocOk convertOk buildGraphOk
    emptySupergraph).1 rfl⟩

/-- C7: when the federation-schema conversion fails, `post_merge_validations`
returns the errors already collected by the non-emptiness, root-query and
structural checks together with the new `InternalError`, regardless of the
query-graph builder (which, like the field-resolvability loop, is skipped). -/
theorem post_merge_conversion_failure_policy (validateDoc : MergedSchema → List String)
    (convert : MergedSchema → Except String Unit)
    (buildGraph : MergedSchema → Except String Unit)
    (sg : Supergraph .Merged) (e : String)
    (hc : convert sg.schema = .error e) :
    post_merge_validations validateDoc convert buildGraph sg =
      .error (earlyPostMergeErrors sg.schema (validateDoc sg.schema) ++
        [CompositionError.InternalError ("Failed to convert schema: " ++ e)]) := by
  simp only [post_merge_validations, hc]
  rw [if_neg]
  simp [List.isEmpty_iff]

/-- Federation-schema conversion collaborator that always fails. -/
def convertFail : MergedSchema → Except String Unit := fun _ => .error "bad schema"

/-- Query-graph building collaborator that always fails; used to show the
graph construction is skipped after a conversion failure. -/
def buildGraphFail : MergedSchema → Except String Unit := fun _ => .error "no graph"

/-- Witness for C7: on the concrete query-less supergraph with a failing
converter, the early errors are returned together with the conversion
`InternalError`, even though the graph builder would also fail. -/
theorem post_merge_conversion_failure_policy_witness :
    post_merge_validations validateDocOk convertFail buildGraphFail emptySupergraph =
      .error (earlyPostMergeErrors emptySupergraph.schema
          (validateDocOk emptySupergraph.schema) ++
        [CompositionError.InternalError ("Failed to convert schema: " ++ "bad schema")]) :=
  post_merge_conversion_failure_policy validateDocOk convertFail buildGraphFail
    emptySupergraph "bad schema" rfl

/-- C1 (evidence of the defect): a merged supergraph containing an object
type "T" whose field "f" has no resolution path in any subgraph (the model
cannot even represent one: the code consults only the type's own field map)
passes `post_merge_validations` with no `SatisfiabilityError` at all. -/
theorem post_merge_unresolvable_field_returns_ok :
    post_merge_validations validateDocOk convertOk buildGraphOk
      ⟨⟨[("Query", ExtendedType.Object ["t"]), ("T", ExtendedType.Object ["f"])],
        some "Query"⟩⟩ = .ok () := rfl

/-- C2 (evidence of the defect): the map handed to the merge engine for two
subgraphs with distinct names and routing urls collapses to a single entry
under the literal key "Subgraph", with name "Subgraph" and an empty url. -/
theorem merge_map_collapses_to_hardcoded_key :
    buildMergeMap fedCheckOk
      [⟨"accounts", "urlAccounts", "schemaAccounts"⟩,
       ⟨"reviews", "urlReviews", "schemaReviews"⟩] [] =
      .ok [("Subgraph", ⟨"Subgraph", "", "schemaReviews"⟩)] := rfl

/-- Bind on `Except` of a success applies the continuation. -/
lemma except_bind_ok {ε α β : Type} (a : α) (f : α → Except ε β) :
    (Except.ok a >>= f) = f a := rfl

/-- Bind on `Except` of a failure short-circuits. -/
lemma except_bind_error {ε α β : Type} (e : ε) (f : α → Except ε β) :
    ((Except.error e : Except ε α) >>= f) = .error e := rfl

/-- C4: `compose` runs expand, upgrade, validate, pre-merge validation,
merge, post-merge validation and satisfiability strictly in sequence: an
error result is the error list of exactly one stage, all earlier stages
having succeeded and no later stage having run; a success is a supergraph
in the `Satisfiable` state produced by the satisfiability solver after
every stage succeeded. -/
theorem compose_stage_sequencing
    (el : Subgraph .Initial → Except CompositionError (Subgraph .Expanded))
    (upgrade : List (Subgraph .Expanded) →
      Except (List CompositionError) (List (Subgraph .Upgraded)))
    (va : Subgraph .Upgraded → Except CompositionError (Subgraph .Validated))
    (fedCheck : String → Except String Unit)
    (mergeEngine : List (String × ValidFederationSubgraph) →
      Except (List String) MergedSchema)
    (validateDoc : MergedSchema → List String)
    (convert : MergedSchema → Except String Unit)
    (buildGraph : MergedSchema → Except String Unit)
    (vsat : Supergraph .Merged → Except (List CompositionError) (Supergraph .Satisfiable))
    (subgraphs : List (Subgraph .Initial)) :
    (∀ E, compose el upgrade va fedCheck mergeEngine validateDoc convert buildGraph
        vsat subgraphs = .error E →
      expand_subgraphs el subgraphs = .error E ∨
      ∃ ex, expand_subgraphs el subgraphs = .ok ex ∧
        (upgrade ex = .error E ∨
        ∃ up, upgrade ex = .ok up ∧
          (validate_subgraphs va up = .error E ∨
          ∃ vd, validate_subgraphs va up = .ok vd ∧
            (pre_merge_validations fedCheck vd = .error E ∨
            (pre_merge_validations fedCheck vd = .ok () ∧
              (merge_subgraphs fedCheck mergeEngine vd = .error E ∨
              ∃ sg, merge_subgraphs fedCheck mergeEngine vd = .ok sg ∧
                (post_merge_validations validateDoc convert buildGraph sg = .error E ∨
                (post_merge_validations validateDoc convert buildGraph sg = .ok () ∧
                  vsat sg = .error E)))))))) ∧
    (∀ s, compose el upgrade va fedCheck mergeEngine validateDoc convert buildGraph
        vsat subgraphs = .ok s →
      ∃ ex up vd sg, expand_subgraphs el subgraphs = .ok ex ∧ upgrade ex = .ok up ∧
        validate_subgraphs va up = .ok vd ∧
        pre_merge_validations fedCheck vd = .ok () ∧
        merge_subgraphs fedCheck mergeEngine vd = .ok sg ∧
        post_merge_validations validateDoc convert buildGraph sg = .ok () ∧
        vsat sg = .ok s) := by
  constructor
  · intro E hE
    unfold compose at hE
    cases hex : expand_subgraphs el subgraphs with
    | error E0 =>
      rw [hex, except_bind_error] at hE
      injection hE with h'
      subst h'
      exact Or.inl rfl
    | ok ex =>
      rw [hex, except_bind_ok] at hE
      refine Or.inr ⟨ex, rfl, ?_⟩
      cases hup : upgrade ex with
      | error E0 =>
        rw [hup, except_bind_error] at hE
        injection hE with h'
        subst h'
        exact Or.inl rfl
      | ok up =>
        rw [hup, except_bind_ok] at hE
        refine Or.inr ⟨up, rfl, ?_⟩
        cases hva : validate_subgraphs va up with
        | error E0 =>
          rw [hva, except_bind_error] at hE
          injection hE with h'
          subst h'
          exact Or.inl rfl
        | ok vd =>
          rw [hva, except_bind_ok] at hE
          refine Or.inr ⟨vd, rfl, ?_⟩
          cases hpre : pre_merge_validations fedCheck vd with
          | error E0 =>
            rw [hpre, except_bind_error] at hE
            injection hE with h'
            subst h'
            exact Or.inl rfl
          | ok u =>
            cases u
            rw [hpre, except_bind_ok] at hE
            refine Or.inr ⟨rfl, ?_⟩
            cases hm : merge_subgraphs fedCheck mergeEngine vd with
            | error E0 =>
              rw [hm, except_bind_error] at hE
              injection hE with h'
              subst h'
              exact Or.inl rfl
            | ok sg =>
              rw [hm, except_bind_ok] at hE
              refine Or.inr ⟨sg, rfl, ?_⟩
              cases hpost : post_merge_validations validateDoc convert buildGraph sg with
              | error E0 =>
                rw [hpost, except_bind_error] at hE
                injection hE with h'
                subst h'
                exact Or.inl rfl
              | ok u =>
                cases u
                rw [hpost, except_bind_ok] at hE
                exact Or.inr ⟨rfl, hE⟩
  · intro s hs
    unfold compose at hs
    cases hex : expand_subgraphs el subgraphs with
    | error E0 =>
      rw [hex, except_bind_error] at hs
      exact Except.noConfusion hs
    | ok ex =>
      rw [hex, except_bind_ok] at hs
      cases hup : upgrade ex with
      | error E0 =>
        rw [hup, except_bind_error] at hs
        exact Except.noConfusion hs
      | ok up =>
        rw [hup, except_bind_ok] at hs
        cases hva : validate_subgraphs va up with
        | error E0 =>
          rw [hva, except_bind_error] at hs
          exact Except.noConfusion hs
        | ok vd =>
          rw [hva, except_bind_ok] at hs
          cases hpre : pre_merge_validations fedCheck vd with
          | error E0 =>
            rw [hpre, except_bind_error] at hs
            exact Except.noConfusion hs
          | ok u =>
            cases u
            rw [hpre, except_bind_ok] at hs
            cases hm : merge_subgraphs fedCheck mergeEngine vd with
            | error E0 =>
              rw [hm, except_bind_error] at hs
              exact Except.noConfusion hs
            | ok sg =>
              rw [hm, except_bind_ok] at hs
              cases hpost : post_merge_validations validateDoc convert buildGraph sg with
              | error E0 =>
                rw [hpost, except_bind_error] at hs
                exact Except.noConfusion hs
              | ok u =>
                cases u
                rw [hpost, except_bind_ok] at hs
                refine ⟨ex, up, vd, sg, ?_, ?_, ?_, ?_, ?_, ?_, hs⟩ <;>
                  first | assumption | rfl

/-- Version-upgrade collaborator that always succeeds, retagging every
artifact. -/
def upgradeOk : List (Subgraph .Expanded) →
    Except (List CompositionError) (List (Subgraph .Upgraded)) :=
  fun l => .ok (l.map fun s => ⟨s.name, s.url, s.schema_string⟩)

/-- Merged schema with a root Query type exposing one field. -/
def querySchema : MergedSchema := ⟨[("Query", ExtendedType.Object ["hello"])], some "Query"⟩

/-- Merge engine collaborator that returns `querySchema`. -/
def mergeEngineOk : List (String × ValidFederationSubgraph) →
    Except (List String) MergedSchema :=
  fun _ => .ok querySchema

/-- Satisfiability solver that accepts the supergraph unchanged. -/
def vsatOk : Supergraph .Merged → Except (List CompositionError) (Supergraph .Satisfiable) :=
  fun sg => .ok ⟨sg.schema⟩

/-- One initial subgraph for the end-to-end run. -/
def initialSingle : List (Subgraph .Initial) := [⟨"accounts", "urlAccounts", "schemaA"⟩]

/-- Witness for C4: a concrete end-to-end success run of `compose`, from
which every stage's success is recovered. -/
theorem compose_stage_sequencing_witness :
    ∃ ex up vd sg, expand_subgraphs expandLinksOk initialSingle = .ok ex ∧
      upgradeOk ex = .ok up ∧ validate_subgraphs validateOk up = .ok vd ∧
      pre_merge_validations fedCheckOk vd = .ok () ∧
      merge_subgraphs fedCheckOk mergeEngineOk vd = .ok sg ∧
      post_merge_validations validateDocOk convertOk buildGraphOk sg = .ok () ∧
      vsatOk sg = .ok ⟨querySchema⟩ :=
  (compose_stage_sequencing expandLinksOk upgradeOk validateOk fedCheckOk mergeEngineOk
    validateDocOk convertOk buildGraphOk vsatOk initialSingle).2 ⟨querySchema⟩ rfl

end Composition
